import Mathlib

/-!
Shallow embedding of the lhs.news client-side feed scripts.

The repository contains several variants of the same script:
* `src/script.js` holds two concatenated variants.  The first one defines
  `formatDisplayDate`, `setupDarkMode`, `loadHiddenGroups`,
  `loadSelectedAccount` / `saveSelectedAccount`, `toggleAccountSelection`,
  `filterPosts` and a `loadInstagramFeed` that sorts by
  `date_posted` (descending) then `order_id` (ascending).  The second one
  defines `applyFiltersAndRender` (account selection overrides group
  filtering) and a `loadInstagramFeed` that sorts by `order_id` only.
* `src/feed_script.js` is an older variant whose `setupDarkMode` defaults
  to light mode.
* `src/unnamed/part_001` is the hidden-accounts variant whose
  `loadInstagramFeed` performs the same group-name enrichment.

Browser state (the `localStorage` string store) is modelled by passing the
relevant stored value as an `Option String` (`none` = key absent) and
returning the updated value where the code writes.  `JSON.parse` is a host
function, so it is passed in as a parameter `String → Option (List String)`
(`none` = the parse threw, or the result was not iterable).  JavaScript
string comparison (`localeCompare`, `<`) is modelled by Lean's
lexicographic order on `String`.
-/

/-- A post record, as read from `feed_data.json` and (optionally) enriched
with `group_name` during load normalization.  `date_posted` is optional in
the data; `group_name` is `none` before normalization. -/
structure Post where
  url : String := ""
  username : String := ""
  group_id : String := ""
  order_id : String := ""
  date_posted : Option String := none
  group_name : Option String := none
deriving DecidableEq, Repr

/-- A group record from the `groups` list of `feed_data.json`.  (The
source calls these simply "groups"; the name `FeedGroup` avoids a clash
with Mathlib's algebraic `Group`.) -/
structure FeedGroup where
  id : String
  name : String
deriving DecidableEq, Repr

/-- Strict lexicographic order on character lists, the order underlying
JavaScript string comparison (`<`, and the sign of `localeCompare` for the
ASCII identifiers and ISO dates this program compares). -/
def charListLt : List Char → List Char → Bool
  | _, [] => false
  | [], _ :: _ => true
  | a :: as, b :: bs => a < b || (a = b && charListLt as bs)

/-- `a < b` on strings, lexicographically. -/
def strLt (a b : String) : Bool :=
  charListLt a.data b.data

/-- `a ≤ b` on strings: `a.localeCompare(b) <= 0`. -/
def strLe (a b : String) : Bool :=
  !(strLt b a)

/-- JavaScript truthiness of a nullable string: `null` and `""` are falsy. -/
def jsStrFalsy : Option String → Bool
  | none => true
  | some s => s == ""

/-- JavaScript `x || d` on a nullable string `x`: the default `d` is used
when `x` is `null`/`undefined` or the empty string. -/
def jsOrDefault (o : Option String) (d : String) : String :=
  match o with
  | none => d
  | some s => if s == "" then d else s

/-- JavaScript `String.prototype.split('-')` on the character list of a
string: splits at every dash, keeping empty segments. -/
def splitDash : List Char → List (List Char)
  | [] => [[]]
  | c :: cs =>
    match splitDash cs with
    | [] => [[]]
    | r :: rs => if c = '-' then [] :: r :: rs else (c :: r) :: rs

/-- The placeholder returned by `formatDisplayDate` for missing or
rejected input. -/
def dateNA : String := "Date N/A"

/-- `formatDisplayDate` (src/script.js lines 19-27): a falsy or
non-length-10 input yields the placeholder; otherwise the string is split
on dashes and, when the first three parts are all truthy (present and
nonempty), reassembled as `month/day/year`. -/
def formatDisplayDate (ds : Option String) : String :=
  match ds with
  | none => dateNA
  | some s =>
    if s == "" || s.length != 10 then dateNA
    else
      let parts := splitDash s.data
      match parts.get? 0, parts.get? 1, parts.get? 2 with
      | some y, some m, some d =>
        if !y.isEmpty && !m.isEmpty && !d.isEmpty then
          String.mk (m ++ '/' :: d ++ '/' :: y)
        else dateNA
      | _, _, _ => dateNA

/-- Theme-resolution part of `setupDarkMode` (src/script.js lines 39-53):
given the stored theme value, returns `(isDarkMode, new stored value)`.
The code stores `"dark"` back only when the stored value was falsy. -/
def setupDarkModeTheme (stored : Option String) : Bool × Option String :=
  if stored = some "light" then (false, stored)
  else (true, if jsStrFalsy stored then some "dark" else stored)

/-- Theme-resolution part of `setupDarkMode` in src/feed_script.js
(lines 15-22): `isDarkMode = savedTheme === 'dark'`; nothing is written
back to storage during resolution. -/
def setupDarkModeFeedTheme (stored : Option String) : Bool :=
  stored = some "dark"

/-- `loadHiddenGroups` (src/script.js lines 73-82): a falsy stored value
parses as the empty list; a stored string is JSON-parsed, and any failure
(modelled by `parseJson` returning `none`) is caught, yielding the empty
set.  The second variant (lines 386-396) computes the same function. -/
def loadHiddenGroups (parseJson : String → Option (List String))
    (stored : Option String) : List String :=
  match stored with
  | none => []
  | some s =>
    if s == "" then []
    else
      match parseJson s with
      | some arr => arr
      | none => []

/-- `loadSelectedAccount` (src/script.js lines 96-98): returns the stored
value (`none` when the key is absent). -/
def loadSelectedAccount (stored : Option String) : Option String :=
  stored

/-- `saveSelectedAccount` (src/script.js lines 104-110): a truthy username
is stored; a falsy one (`null` or `""`) removes the key.  Returns the new
stored value. -/
def saveSelectedAccount (username : Option String) : Option String :=
  match username with
  | some u => if u == "" then none else some u
  | none => none

/-- `toggleAccountSelection` (src/script.js lines 133-143): deselects when
the toggled username is the current selection, otherwise selects it
exclusively.  Returns the new stored selected-account value. -/
def toggleAccountSelection (username : String) (stored : Option String) :
    Option String :=
  if loadSelectedAccount stored = some username then
    saveSelectedAccount none
  else
    saveSelectedAccount (some username)

/-- `filterPosts` (src/script.js lines 152-162): a post passes when its
group is not hidden AND (no truthy account is selected OR its username
equals the selection). -/
def filterPosts (posts : List Post) (hiddenGroups : List String)
    (selectedAccount : Option String) : List Post :=
  posts.filter fun post =>
    let groupPass := !(hiddenGroups.contains post.group_id)
    let accountPass :=
      jsStrFalsy selectedAccount || (some post.username == selectedAccount)
    groupPass && accountPass

/-- The filtering step of `applyFiltersAndRender` in the second variant of
src/script.js (lines 526-544): when an account is selected
(`selectedAccount !== null`) only the username is checked and the group
filter is ignored; otherwise the group filter applies. -/
def applyFiltersAndRender (postData : List Post) (hiddenGroups : List String)
    (selectedAccount : Option String) : List Post :=
  postData.filter fun post =>
    match selectedAccount with
    | some a => post.username == a
    | none => !(hiddenGroups.contains post.group_id)

/-- `groupMap.get` for the map built in `loadInstagramFeed`
(src/script.js line 279): a JavaScript `Map` built from a list of pairs
keeps the LAST entry for a duplicated key. -/
def groupMapGet (groups : List FeedGroup) (gid : String) : Option String :=
  (groups.reverse.find? fun g => g.id == gid).map FeedGroup.name

/-- The per-post enrichment of `loadInstagramFeed` (src/script.js lines
283-291, src/unnamed/part_001 lines 303-312):
`group_name = groupMap.get(post.group_id) || 'Unknown Group'`. -/
def enrichPost (groups : List FeedGroup) (post : Post) : Post :=
  { post with
    group_name := some (jsOrDefault (groupMapGet groups post.group_id)
      "Unknown Group") }

/-- The post-processing map of `loadInstagramFeed`: enrich every post. -/
def normalizePosts (groups : List FeedGroup) (posts : List Post) : List Post :=
  posts.map (enrichPost groups)

/-- The effective date used by the sort comparator in the first variant of
src/script.js (lines 295-296): `a.date_posted || '0000-01-01'`. -/
def effDate (p : Post) : String :=
  jsOrDefault p.date_posted "0000-01-01"

/-- The comparator of the date-sorting variant (src/script.js lines
294-304) as a boolean `le`: `a` may precede `b` iff the comparator value
is non-positive, i.e. dates differ and `b`'s date is smaller (date
descending), or dates agree and `a.order_id ≤ b.order_id`. -/
def postDateLE (a b : Post) : Bool :=
  if effDate a = effDate b then strLe a.order_id b.order_id
  else strLt (effDate b) (effDate a)

/-- The in-place `ALL_POST_DATA.sort(...)` of the date-sorting variant
(src/script.js line 294), modelled by a stable merge sort with the
comparator `postDateLE`. -/
def sortPostsByDate (posts : List Post) : List Post :=
  posts.mergeSort postDateLE

/-- The comparator of the order-id-only variant (src/script.js line 660,
src/unnamed/part_001 line 315) as a boolean `le`. -/
def orderIdLE (a b : Post) : Bool :=
  strLe a.order_id b.order_id

/-- The in-place `ALL_POST_DATA.sort(...)` of the order-id-only variant
(src/script.js lines 659-660), modelled by a stable merge sort. -/
def sortPostsByOrderId (posts : List Post) : List Post :=
  posts.mergeSort orderIdLE

/-- The sortedness key claimed for the post list: primary `date_posted`
descending (on effective dates), secondary `order_id` ascending. -/
def dateOrderKey (a b : Post) : Prop :=
  strLt (effDate b) (effDate a) = true ∨
    (effDate a = effDate b ∧ strLe a.order_id b.order_id = true)

/-- A post is undated when `date_posted` is absent. -/
def undated (p : Post) : Bool :=
  p.date_posted.isNone

/-- A sample post of account "alice" in group "g". -/
def pAlice : Post :=
  { username := "alice", group_id := "g" }

instance (a b : Post) : Decidable (dateOrderKey a b) := by
  unfold dateOrderKey
  infer_instance

/-- A well-formed `YYYY-MM-DD` string, per the spec's date format: ten
characters, digits in the year/month/day positions, dashes between. -/
def isWellFormedDate (s : String) : Prop :=
  ∃ y1 y2 y3 y4 m1 m2 d1 d2 : Char,
    s.data = [y1, y2, y3, y4, '-', m1, m2, '-', d1, d2] ∧
    (y1.isDigit && y2.isDigit && y3.isDigit && y4.isDigit &&
     m1.isDigit && m2.isDigit && d1.isDigit && d2.isDigit) = true

/-- The `MM/DD/YYYY` presentation of a ten-character date string (the
spec's intended output format; on other shapes it is the identity and is
never used on them here). -/
def mmddyyyy (s : String) : String :=
  match s.data with
  | [y1, y2, y3, y4, _, m1, m2, _, d1, d2] =>
    String.mk [m1, m2, '/', d1, d2, '/', y1, y2, y3, y4]
  | _ => s

example : formatDisplayDate (some "2024-03-09") = "03/09/2024" := by decide
example : formatDisplayDate (some "aaaa-bb-cc") = "bb/cc/aaaa" := by decide
example : formatDisplayDate none = "Date N/A" := by decide
example : formatDisplayDate (some "2024-3-9") = "Date N/A" := by decide
example : formatDisplayDate (some "2024x03x09") = "Date N/A" := by decide
example : setupDarkModeTheme none = (true, some "dark") := by decide
example : setupDarkModeFeedTheme none = false := by decide
example : toggleAccountSelection "" none = none := by decide
example : saveSelectedAccount (some "") = none := by decide
example :
    filterPosts [{ username := "alice", group_id := "g" }] ["g"]
      (some "alice") = [] := by decide
example :
    applyFiltersAndRender [{ username := "alice", group_id := "g" }] ["g"]
      (some "alice") = [{ username := "alice", group_id := "g" }] := by
  decide
example :
    sortPostsByDate
      [{ order_id := "0002", date_posted := some "2024-01-01" },
       { order_id := "0001", date_posted := some "2025-01-01" }] =
      [{ order_id := "0001", date_posted := some "2025-01-01" },
       { order_id := "0002", date_posted := some "2024-01-01" }] := by
  simp [sortPostsByDate, List.mergeSort, List.splitInTwo, List.merge]
  decide

/-! ## Order lemmas for the lexicographic string comparison -/

theorem charListLt_irrefl (l : List Char) : charListLt l l = false := by
  induction l with
  | nil => rfl
  | cons a as ih => simp [charListLt, ih]

theorem charListLt_trans (a b c : List Char) (h1 : charListLt a b = true)
    (h2 : charListLt b c = true) : charListLt a c = true := by
  induction a generalizing b c with
  | nil =>
    cases c with
    | nil => cases b <;> simp [charListLt] at h2
    | cons z zs => simp [charListLt]
  | cons x xs ih =>
    cases b with
    | nil => simp [charListLt] at h1
    | cons y ys =>
      cases c with
      | nil => simp [charListLt] at h2
      | cons z zs =>
        simp only [charListLt, Bool.or_eq_true, Bool.and_eq_true,
          decide_eq_true_eq] at h1 h2 ⊢
        rcases h1 with h1 | ⟨rfl, h1⟩
        · rcases h2 with h2 | ⟨rfl, h2⟩
          · exact Or.inl (lt_trans h1 h2)
          · exact Or.inl h1
        · rcases h2 with h2 | ⟨rfl, h2⟩
          · exact Or.inl h2
          · exact Or.inr ⟨rfl, ih _ _ h1 h2⟩

theorem charListLt_trichotomy (a b : List Char) :
    charListLt a b = true ∨ a = b ∨ charListLt b a = true := by
  induction a generalizing b with
  | nil =>
    cases b with
    | nil => exact Or.inr (Or.inl rfl)
    | cons y ys => exact Or.inl rfl
  | cons x xs ih =>
    cases b with
    | nil => exact Or.inr (Or.inr rfl)
    | cons y ys =>
      rcases lt_trichotomy x y with h | rfl | h
      · exact Or.inl (by simp [charListLt, h])
      · rcases ih ys with h | rfl | h
        · exact Or.inl (by simp [charListLt, h])
        · exact Or.inr (Or.inl rfl)
        · exact Or.inr (Or.inr (by simp [charListLt, h]))
      · exact Or.inr (Or.inr (by simp [charListLt, h]))

theorem strLt_irrefl (s : String) : strLt s s = false :=
  charListLt_irrefl s.data

theorem strLt_trans {a b c : String} (h1 : strLt a b = true)
    (h2 : strLt b c = true) : strLt a c = true :=
  charListLt_trans _ _ _ h1 h2

theorem strLt_trichotomy (a b : String) :
    strLt a b = true ∨ a = b ∨ strLt b a = true := by
  rcases charListLt_trichotomy a.data b.data with h | h | h
  · exact Or.inl h
  · refine Or.inr (Or.inl ?_)
    cases a
    cases b
    exact congrArg String.mk h
  · exact Or.inr (Or.inr h)

theorem strLt_asymm {a b : String} (h : strLt a b = true) :
    strLt b a = false := by
  cases hba : strLt b a with
  | false => rfl
  | true =>
    have h2 := strLt_trans h hba
    rw [strLt_irrefl] at h2
    exact absurd h2 (by simp)

theorem strLe_refl (a : String) : strLe a a = true := by
  unfold strLe
  rw [strLt_irrefl]
  rfl

theorem strLe_of_strLt {a b : String} (h : strLt a b = true) :
    strLe a b = true := by
  unfold strLe
  rw [strLt_asymm h]
  rfl

theorem strLe_total (a b : String) : strLe a b = true ∨ strLe b a = true := by
  rcases strLt_trichotomy a b with h | rfl | h
  · exact Or.inl (strLe_of_strLt h)
  · exact Or.inl (strLe_refl a)
  · exact Or.inr (strLe_of_strLt h)

theorem strLe_trans {a b c : String} (h1 : strLe a b = true)
    (h2 : strLe b c = true) : strLe a c = true := by
  unfold strLe at h1 h2 ⊢
  cases hca : strLt c a with
  | false => rfl
  | true =>
    exfalso
    rcases strLt_trichotomy a b with hab | rfl | hba
    · rw [strLt_trans hca hab] at h2
      simp at h2
    · rw [hca] at h2
      simp at h2
    · rw [hba] at h1
      simp at h1

/-! ## The two sort comparators are transitive and total -/

theorem postDateLE_trans (a b c : Post) (h1 : postDateLE a b = true)
    (h2 : postDateLE b c = true) : postDateLE a c = true := by
  unfold postDateLE at h1 h2 ⊢
  by_cases hab : effDate a = effDate b <;> by_cases hbc : effDate b = effDate c
  · rw [if_pos hab] at h1
    rw [if_pos hbc] at h2
    rw [if_pos (hab.trans hbc)]
    exact strLe_trans h1 h2
  · rw [if_pos hab] at h1
    rw [if_neg hbc] at h2
    rw [if_neg (fun h => hbc (hab.symm.trans h)), hab]
    exact h2
  · rw [if_neg hab] at h1
    rw [if_pos hbc] at h2
    rw [if_neg (fun h => hab (h.trans hbc.symm)), ← hbc]
    exact h1
  · rw [if_neg hab] at h1
    rw [if_neg hbc] at h2
    have hca : strLt (effDate c) (effDate a) = true := strLt_trans h2 h1
    have hac : effDate a ≠ effDate c := by
      intro h
      rw [h, strLt_irrefl] at hca
      exact absurd hca (by simp)
    rw [if_neg hac]
    exact hca

theorem postDateLE_total (a b : Post) :
    (postDateLE a b || postDateLE b a) = true := by
  unfold postDateLE
  by_cases hab : effDate a = effDate b
  · rw [if_pos hab, if_pos hab.symm]
    rcases strLe_total a.order_id b.order_id with h | h <;> simp [h]
  · rw [if_neg hab, if_neg (Ne.symm hab)]
    rcases strLt_trichotomy (effDate a) (effDate b) with h | h | h
    · simp [h]
    · exact absurd h hab
    · simp [h]

theorem orderIdLE_trans (a b c : Post) (h1 : orderIdLE a b = true)
    (h2 : orderIdLE b c = true) : orderIdLE a c = true :=
  strLe_trans h1 h2

theorem orderIdLE_total (a b : Post) : (orderIdLE a b || orderIdLE b a) = true := by
  rcases strLe_total a.order_id b.order_id with h | h <;>
    simp [orderIdLE, h]

/-- The output of the date-sorting variant is pairwise ordered by its
comparator. -/
theorem sortPostsByDate_pairwise (l : List Post) :
    (sortPostsByDate l).Pairwise (fun a b => postDateLE a b = true) :=
  List.sorted_mergeSort postDateLE_trans postDateLE_total l

/-- The output of the date-sorting variant is a permutation of its input. -/
theorem sortPostsByDate_perm (l : List Post) : (sortPostsByDate l).Perm l :=
  List.mergeSort_perm l postDateLE

/-- The output of the order-id-only variant is pairwise ordered by
`order_id`. -/
theorem sortPostsByOrderId_pairwise (l : List Post) :
    (sortPostsByOrderId l).Pairwise (fun a b => orderIdLE a b = true) :=
  List.sorted_mergeSort orderIdLE_trans orderIdLE_total l

/-- The output of the order-id-only variant is a permutation of its
input. -/
theorem sortPostsByOrderId_perm (l : List Post) :
    (sortPostsByOrderId l).Perm l :=
  List.mergeSort_perm l orderIdLE

/-! ## Claim theorems -/


/-- C1 counterexample: with account "alice" selected and alice's group "g"
hidden, `filterPosts` (src/script.js lines 152-162) returns the empty
list, although the input holds a post of alice — so the result is NOT
"exactly the posts whose username equals the selection, ignoring the
hidden groups entirely". -/
theorem claim_C1_counterexample :
    filterPosts [pAlice] ["g"] (some "alice") = [] ∧
    pAlice ∈ [pAlice] ∧ pAlice.username = "alice" := by
  decide

/-- C1 amended: the second variant's `applyFiltersAndRender` does return
exactly the posts whose username equals the present selection, in input
order, independently of the hidden groups; `filterPosts` (first variant)
additionally applies the group filter, so with a present nonempty
selection it returns the posts that match the account AND whose group is
not hidden. -/
theorem claim_C1_account_selection_precedence :
    (∀ (P : List Post) (H : List String) (a : String),
      (∀ p : Post, p ∈ applyFiltersAndRender P H (some a) ↔
        p ∈ P ∧ p.username = a) ∧
      List.Sublist (applyFiltersAndRender P H (some a)) P ∧
      (∀ H2 : List String,
        applyFiltersAndRender P H (some a) =
          applyFiltersAndRender P H2 (some a))) ∧
    (∀ (P : List Post) (H : List String) (a : String), a ≠ "" →
      ∀ p : Post, p ∈ filterPosts P H (some a) ↔
        p ∈ P ∧ H.contains p.group_id = false ∧ p.username = a) := by
  constructor
  · intro P H a
    refine ⟨fun p => ?_, List.filter_sublist P, fun H2 => rfl⟩
    simp [applyFiltersAndRender, List.mem_filter]
  · intro P H a ha p
    simp [filterPosts, List.mem_filter, jsStrFalsy, ha, Bool.not_eq_true',
      and_assoc]

/-- C1 witness: the amended theorem evaluated at a singleton list. -/
theorem claim_C1_witness :
    ("alice" : String) ≠ "" ∧
    (pAlice ∈ filterPosts [pAlice] [] (some "alice") ↔
      pAlice ∈ [pAlice] ∧ List.contains [] pAlice.group_id = false ∧
        pAlice.username = "alice") :=
  ⟨by decide,
   claim_C1_account_selection_precedence.2 [pAlice] [] "alice" (by decide)
     pAlice⟩

/-- C2: with no account selected, both filter variants return exactly the
posts whose `group_id` is not hidden, as a sublist of the input (hence in
the input's relative order). -/
theorem claim_C2_no_selection_group_filter (P : List Post)
    (H : List String) :
    (∀ p : Post, p ∈ filterPosts P H none ↔
      p ∈ P ∧ H.contains p.group_id = false) ∧
    List.Sublist (filterPosts P H none) P ∧
    (∀ p : Post, p ∈ applyFiltersAndRender P H none ↔
      p ∈ P ∧ H.contains p.group_id = false) ∧
    List.Sublist (applyFiltersAndRender P H none) P := by
  refine ⟨fun p => ?_, List.filter_sublist P, fun p => ?_,
    List.filter_sublist P⟩
  · simp [filterPosts, List.mem_filter, jsStrFalsy, Bool.not_eq_true']
  · simp [applyFiltersAndRender, List.mem_filter, Bool.not_eq_true']

/-- C4 counterexample: in src/feed_script.js's `setupDarkMode`, an absent
stored theme resolves to LIGHT mode (`isDarkMode = savedTheme === 'dark'`
is false), not dark as the claim states for this function. -/
theorem claim_C4_counterexample : setupDarkModeFeedTheme none = false := by
  decide

/-- C4 amended: in src/script.js's `setupDarkMode` the claim holds — an
absent value resolves to dark and `"dark"` is written back so a second
resolution still yields dark, `"light"` resolves to light, and any other
stored value resolves to dark.  In src/feed_script.js the theme resolves
to dark exactly when the stored value is `"dark"`. -/
theorem claim_C4_theme_resolution :
    setupDarkModeTheme none = (true, some "dark") ∧
    setupDarkModeTheme (some "light") = (false, some "light") ∧
    (setupDarkModeTheme ((setupDarkModeTheme none).2)).1 = true ∧
    (∀ s : String, s ≠ "light" → (setupDarkModeTheme (some s)).1 = true) ∧
    (∀ st : Option String, setupDarkModeFeedTheme st = true ↔
      st = some "dark") := by
  refine ⟨by decide, by decide, by decide, fun s hs => ?_, fun st => ?_⟩
  · simp [setupDarkModeTheme, hs]
  · simp [setupDarkModeFeedTheme]

/-- C4 witness: a stored value other than "light" resolves to dark. -/
theorem claim_C4_witness :
    ("purple" : String) ≠ "light" ∧
    (setupDarkModeTheme (some "purple")).1 = true :=
  ⟨by decide, claim_C4_theme_resolution.2.2.2.1 "purple" (by decide)⟩

/-- C5: `loadHiddenGroups` is total (it is a Lean function into
`List String`, so it cannot raise); an absent stored value yields the
empty set and any stored value on which the JSON decode fails yields the
empty set. -/
theorem claim_C5_load_hidden_groups_defensive
    (parseJson : String → Option (List String)) :
    loadHiddenGroups parseJson none = [] ∧
    ∀ s : String, parseJson s = none →
      loadHiddenGroups parseJson (some s) = [] := by
  refine ⟨rfl, fun s hs => ?_⟩
  by_cases h : s = "" <;> simp [loadHiddenGroups, hs, h]

/-- C5 witness: a decoder that always fails still yields the empty set. -/
theorem claim_C5_witness :
    ((fun _ : String => (none : Option (List String))) "not json" = none) ∧
    loadHiddenGroups (fun _ => none) (some "not json") = [] :=
  ⟨rfl,
   (claim_C5_load_hidden_groups_defensive (fun _ => none)).2 "not json" rfl⟩

/-- C6 counterexample: toggling the empty username from the unselected
state yields `none` (because `saveSelectedAccount` treats `""` as falsy
and removes the key), not `some ""` as the claim requires for
`s ≠ u`. -/
theorem claim_C6_counterexample :
    toggleAccountSelection "" none = none ∧
    (none : Option String) ≠ some "" := by
  decide

/-- C6 amended: for every NONEMPTY username the toggle is the claimed
two-state machine (toggling the current selection deselects, toggling any
other username selects it exclusively); toggling the empty username
always leaves the selection absent. -/
theorem claim_C6_toggle_two_state :
    (∀ (s : Option String) (u : String), u ≠ "" →
      toggleAccountSelection u s = if s = some u then none else some u) ∧
    (∀ s : Option String, toggleAccountSelection "" s = none) := by
  constructor
  · intro s u hu
    by_cases h : s = some u <;>
      simp [toggleAccountSelection, loadSelectedAccount,
        saveSelectedAccount, h, hu]
  · intro s
    by_cases h : s = some "" <;>
      simp [toggleAccountSelection, loadSelectedAccount,
        saveSelectedAccount, h]

/-- C6 witness: toggling "bob" while "alice" is selected. -/
theorem claim_C6_witness :
    ("bob" : String) ≠ "" ∧
    toggleAccountSelection "bob" (some "alice") =
      (if (some "alice" : Option String) = some "bob" then none
       else some "bob") :=
  ⟨by decide, claim_C6_toggle_two_state.1 (some "alice") "bob" (by decide)⟩

/-- C9 counterexample: persisting the empty-string username REMOVES the
stored key (`if (username)` is false for `""`), so a subsequent read
returns absent, not `""` — the empty-string username is NOT
distinguishable from "no preference". -/
theorem claim_C9_counterexample :
    saveSelectedAccount (some "") = none ∧
    loadSelectedAccount (saveSelectedAccount (some "")) ≠ some "" := by
  decide

/-- C9 amended: persisting absent removes the stored key so a subsequent
read returns absent, and persisting a NONEMPTY username stores it so a
subsequent read returns it; the empty-string username is conflated with
"no preference" (both remove the key). -/
theorem claim_C9_save_load_selected_account :
    loadSelectedAccount (saveSelectedAccount none) = none ∧
    (∀ u : String, u ≠ "" →
      loadSelectedAccount (saveSelectedAccount (some u)) = some u) ∧
    loadSelectedAccount (saveSelectedAccount (some "")) = none := by
  refine ⟨rfl, fun u hu => ?_, rfl⟩
  simp [loadSelectedAccount, saveSelectedAccount, hu]

/-- C9 witness: round trip for the username "bob". -/
theorem claim_C9_witness :
    ("bob" : String) ≠ "" ∧
    loadSelectedAccount (saveSelectedAccount (some "bob")) = some "bob" :=
  ⟨by decide, claim_C9_save_load_selected_account.2.1 "bob" (by decide)⟩


/-- C3 counterexample: the order-id-only variant (src/script.js lines
659-660) sorts two dated posts by `order_id` alone, producing a list whose
dates are ASCENDING — the output is not sorted by date descending. -/
theorem claim_C3_counterexample :
    sortPostsByOrderId
      [{ order_id := "0002", date_posted := some "2025-01-01" },
       { order_id := "0001", date_posted := some "2024-01-01" }] =
      [{ order_id := "0001", date_posted := some "2024-01-01" },
       { order_id := "0002", date_posted := some "2025-01-01" }] ∧
    ¬ List.Pairwise dateOrderKey
        [({ order_id := "0001", date_posted := some "2024-01-01" } : Post),
         ({ order_id := "0002", date_posted := some "2025-01-01" } : Post)] := by
  constructor
  · simp [sortPostsByOrderId, List.mergeSort, List.splitInTwo,
      List.merge]
    decide
  · intro hp
    rw [List.pairwise_cons] at hp
    exact absurd (hp.1 _ (List.mem_cons_self _ _))
      (by unfold dateOrderKey; decide)

/-- C3 amended: the date-sorting variant (src/script.js lines 293-304)
produces a permutation of its input sorted with primary key effective
`date_posted` descending and secondary key `order_id` ascending under
lexicographic string comparison; the order-id-only variant (lines
659-660) produces a permutation sorted by `order_id` ascending only. -/
theorem claim_C3_load_time_sort :
    (∀ l : List Post,
      List.Pairwise dateOrderKey (sortPostsByDate l) ∧
      List.Perm (sortPostsByDate l) l) ∧
    (∀ l : List Post,
      List.Pairwise (fun a b => strLe a.order_id b.order_id = true)
        (sortPostsByOrderId l) ∧
      List.Perm (sortPostsByOrderId l) l) := by
  constructor
  · intro l
    refine ⟨List.Pairwise.imp ?_ (sortPostsByDate_pairwise l),
      sortPostsByDate_perm l⟩
    intro a b h
    unfold postDateLE at h
    by_cases hd : effDate a = effDate b
    · rw [if_pos hd] at h
      exact Or.inr ⟨hd, h⟩
    · rw [if_neg hd] at h
      exact Or.inl h
  · intro l
    exact ⟨sortPostsByOrderId_pairwise l, sortPostsByOrderId_perm l⟩

/-- A `find?` over a list with a unique matching id returns that entry. -/
theorem find_id_eq_of_unique (l : List FeedGroup) (g : FeedGroup)
    (hmem : g ∈ l) (huniq : ∀ g2 ∈ l, g2.id = g.id → g2 = g) :
    (l.find? fun x => x.id == g.id) = some g := by
  induction l with
  | nil => cases hmem
  | cons h t ih =>
    by_cases hh : h.id = g.id
    · have hg : h = g := huniq h (List.mem_cons_self h t) hh
      subst hg
      simp [List.find?_cons, hh]
    · have hmem2 : g ∈ t := by
        cases hmem with
        | head => exact absurd rfl hh
        | tail _ hmem2 => exact hmem2
      have huniq2 : ∀ g2 ∈ t, g2.id = g.id → g2 = g := fun g2 hg2 =>
        huniq g2 (List.mem_cons_of_mem h hg2)
      have hb : (h.id == g.id) = false := by
        simp [hh]
      rw [List.find?_cons, hb]
      exact ih hmem2 huniq2

/-- C7 counterexample: a declared group with the EMPTY string as its name
matches a post's `group_id`, yet `||` treats the empty name as falsy, so
the post is enriched with the sentinel "Unknown Group" instead of the
declared name. -/
theorem claim_C7_counterexample :
    ((⟨"g", ""⟩ : FeedGroup) ∈ [(⟨"g", ""⟩ : FeedGroup)]) ∧
    ({ group_id := "g" } : Post).group_id = (⟨"g", ""⟩ : FeedGroup).id ∧
    (enrichPost [⟨"g", ""⟩] { group_id := "g" }).group_name =
      some "Unknown Group" ∧
    (some "Unknown Group" : Option String) ≠
      some (FeedGroup.name ⟨"g", ""⟩) := by
  decide

/-- C7 amended: a post whose `group_id` matches a uniquely declared group
with a NONEMPTY name is enriched with that name; a post whose `group_id`
matches no declared group receives the sentinel "Unknown Group"; and
normalization is total (it maps each post to an enriched post, so an
unmatched id never fails). -/
theorem claim_C7_group_name_enrichment :
    (∀ (groups : List FeedGroup) (p : Post) (g : FeedGroup),
      g ∈ groups → (∀ g2 ∈ groups, g2.id = g.id → g2 = g) →
      g.name ≠ "" → p.group_id = g.id →
      (enrichPost groups p).group_name = some g.name) ∧
    (∀ (groups : List FeedGroup) (p : Post),
      (∀ g ∈ groups, g.id ≠ p.group_id) →
      (enrichPost groups p).group_name = some "Unknown Group") ∧
    (∀ (groups : List FeedGroup) (posts : List Post),
      (normalizePosts groups posts).length = posts.length) := by
  refine ⟨?_, ?_, ?_⟩
  · intro groups p g hmem huniq hname hpid
    have hmem2 : g ∈ groups.reverse := List.mem_reverse.mpr hmem
    have huniq2 : ∀ g2 ∈ groups.reverse, g2.id = g.id → g2 = g :=
      fun g2 hg2 => huniq g2 (List.mem_reverse.mp hg2)
    simp only [enrichPost, groupMapGet, hpid,
      find_id_eq_of_unique groups.reverse g hmem2 huniq2, Option.map_some']
    simp [jsOrDefault, hname]
  · intro groups p h
    have hnone : (groups.reverse.find? fun x => x.id == p.group_id) = none := by
      rw [List.find?_eq_none]
      intro x hx
      simp [h x (List.mem_reverse.mp hx)]
    simp [enrichPost, groupMapGet, hnone, jsOrDefault]
  · intro groups posts
    simp [normalizePosts]

/-- C7 witness: the enrichment evaluated at a matching nonempty-name
group. -/
theorem claim_C7_witness :
    ((⟨"g", "Photo"⟩ : FeedGroup) ∈ [(⟨"g", "Photo"⟩ : FeedGroup)]) ∧
    (enrichPost [⟨"g", "Photo"⟩] { group_id := "g" }).group_name =
      some "Photo" :=
  ⟨by decide,
   claim_C7_group_name_enrichment.1 [⟨"g", "Photo"⟩] { group_id := "g" }
     ⟨"g", "Photo"⟩ (by decide) (by decide) (by decide) rfl⟩

/-- A post lacking `date_posted` (and one whose date is the empty string)
is compared via the sentinel date. -/
theorem effDate_of_undated (p : Post) (hp : undated p = true) :
    effDate p = "0000-01-01" := by
  unfold undated at hp
  cases hdp : p.date_posted with
  | none => simp [effDate, jsOrDefault, hdp]
  | some s =>
    rw [hdp] at hp
    simp at hp

/-- C10 counterexample: a DATED post whose `date_posted` is exactly the
sentinel "0000-01-01" ties with an undated post, and when its `order_id`
is larger the undated post sorts BEFORE it — so undated posts do not sort
after every dated post. -/
theorem claim_C10_counterexample :
    sortPostsByDate
      [{ order_id := "0001", date_posted := some "0000-01-01" },
       { order_id := "0000" }] =
      [{ order_id := "0000" },
       { order_id := "0001", date_posted := some "0000-01-01" }] ∧
    undated ({ order_id := "0000" } : Post) = true ∧
    undated ({ order_id := "0001", date_posted := some "0000-01-01" } :
      Post) = false := by
  refine ⟨?_, by decide, by decide⟩
  simp [sortPostsByDate, List.mergeSort, List.splitInTwo,
    List.merge]
  decide

/-- C10 amended: the comparator treats every undated post as dated
"0000-01-01"; consequently, in the sorted output an undated post is never
followed by a post whose effective date exceeds "0000-01-01" (so undated
posts come after all strictly-later-dated posts), and undated posts among
themselves are ordered by `order_id` ascending.  A dated post whose
effective date IS "0000-01-01" ties with undated posts and may follow
them. -/
theorem claim_C10_undated_sentinel_sort :
    (∀ p : Post, undated p = true → effDate p = "0000-01-01") ∧
    (∀ l : List Post,
      List.Pairwise
        (fun a b => undated a = true →
          strLe (effDate b) "0000-01-01" = true ∧
          (undated b = true → strLe a.order_id b.order_id = true))
        (sortPostsByDate l)) := by
  constructor
  · exact effDate_of_undated
  · intro l
    refine List.Pairwise.imp ?_ (sortPostsByDate_pairwise l)
    intro a b h ha
    have hea := effDate_of_undated a ha
    unfold postDateLE at h
    by_cases hd : effDate a = effDate b
    · rw [if_pos hd] at h
      rw [← hd, hea]
      exact ⟨strLe_refl _, fun _ => h⟩
    · rw [if_neg hd] at h
      rw [hea] at h
      refine ⟨strLe_of_strLt h, fun hb => ?_⟩
      have heb := effDate_of_undated b hb
      rw [heb, strLt_irrefl] at h
      exact absurd h (by simp)

/-- C10 witness: an undated post has effective date "0000-01-01". -/
theorem claim_C10_witness :
    undated ({ order_id := "0000" } : Post) = true ∧
    effDate ({ order_id := "0000" } : Post) = "0000-01-01" :=
  ⟨by decide, claim_C10_undated_sentinel_sort.1 _ (by decide)⟩


theorem digit_ne_dash {c : Char} (h : c.isDigit = true) : c ≠ '-' := by
  intro hc
  rw [hc] at h
  exact absurd h (by decide)

/-- C8 counterexample: "aaaa-bb-cc" is not a well-formed date (its
characters are not digits), yet `formatDisplayDate` does not return the
placeholder — it blindly reassembles the dash-separated parts into
"bb/cc/aaaa". -/
theorem claim_C8_counterexample :
    formatDisplayDate (some "aaaa-bb-cc") = "bb/cc/aaaa" ∧
    ("bb/cc/aaaa" : String) ≠ dateNA ∧
    ¬ isWellFormedDate "aaaa-bb-cc" := by
  refine ⟨by decide, by decide, ?_⟩
  rintro ⟨y1, y2, y3, y4, m1, m2, d1, d2, hdata, hdig⟩
  simp only [Bool.and_eq_true] at hdig
  obtain ⟨⟨⟨⟨⟨⟨⟨h1, _⟩, _⟩, _⟩, _⟩, _⟩, _⟩, _⟩ := hdig
  have hval : "aaaa-bb-cc".data =
      ['a', 'a', 'a', 'a', '-', 'b', 'b', '-', 'c', 'c'] := rfl
  rw [hval] at hdata
  simp only [List.cons.injEq] at hdata
  rw [← hdata.1] at h1
  exact absurd h1 (by decide)

/-- C8 amended: every WELL-FORMED `YYYY-MM-DD` string is converted to
`MM/DD/YYYY`; absent input and wrong-length input yield "Date N/A"; but
digits are not validated, so some invalid length-10 inputs (see the
counterexample) are reassembled instead of rejected. -/
theorem claim_C8_format_display_date :
    (∀ s : String, isWellFormedDate s →
      formatDisplayDate (some s) = mmddyyyy s) ∧
    formatDisplayDate none = dateNA ∧
    (∀ s : String, s.length ≠ 10 → formatDisplayDate (some s) = dateNA) := by
  refine ⟨?_, rfl, ?_⟩
  · intro s hs
    obtain ⟨y1, y2, y3, y4, m1, m2, d1, d2, hdata, hdig⟩ := hs
    simp only [Bool.and_eq_true] at hdig
    obtain ⟨⟨⟨⟨⟨⟨⟨h1, h2⟩, h3⟩, h4⟩, h5⟩, h6⟩, h7⟩, h8⟩ := hdig
    have n1 := digit_ne_dash h1
    have n2 := digit_ne_dash h2
    have n3 := digit_ne_dash h3
    have n4 := digit_ne_dash h4
    have n5 := digit_ne_dash h5
    have n6 := digit_ne_dash h6
    have n7 := digit_ne_dash h7
    have n8 := digit_ne_dash h8
    cases s with
    | mk data =>
      simp only [String.data] at hdata
      subst hdata
      simp [formatDisplayDate, mmddyyyy, splitDash, n1, n2, n3, n4, n5, n6,
        n7, n8]
      intro h
      have hnil : ([y1, y2, y3, y4, '-', m1, m2, '-', d1, d2] :
          List Char) = [] := congrArg String.data h
      exact absurd hnil (by simp)
  · intro s h
    have hb : (s.length != 10) = true := by
      simp [h]
    simp [formatDisplayDate, hb]

/-- C8 witness: the conversion evaluated on a well-formed date. -/
theorem claim_C8_witness :
    isWellFormedDate "2024-03-09" ∧
    formatDisplayDate (some "2024-03-09") = mmddyyyy "2024-03-09" ∧
    mmddyyyy "2024-03-09" = "03/09/2024" :=
  ⟨⟨'2', '0', '2', '4', '0', '3', '0', '9', rfl, by decide⟩,
   claim_C8_format_display_date.1 "2024-03-09"
     ⟨'2', '0', '2', '4', '0', '3', '0', '9', rfl, by decide⟩,
   by decide⟩
